import Mathlib

/-!
Shallow embedding of the reservation-manager frontend's core logic:

* the reservation list filter (`filtered` in the `ReservationList` component),
* the weekly calendar layout engine (`itemsByDay`, `startOfWeek`, `addDays`,
  `keyOfDate`, `parseDateSafe`, `positionForTime`, `dayColumnIndex` in the
  `ReservationCalendar` component),
* the reservation form validator (`validate`, `constraints`, `isFutureOrNow`
  in the `ReservationForm` component).

Modelling conventions:

* A JavaScript `Date` is its millisecond timestamp (`Int`); an invalid date
  (`NaN` time value) is `none`, so a possibly-invalid date is `Option Int`.
  Date accessors follow the ECMA-262 definitions (`Day`, `WeekDay`,
  `HourFromTime`, `MinFromTime`, `YearFromTime`, ...) with floor
  division/modulus, which is what `Int`'s `/` and `%` compute for positive
  divisors.  The host timezone is taken to be UTC (offset 0), so local-time
  accessors coincide with the UTC ones.
* `new Date(string)` is modelled for the ISO-8601 forms the application
  produces and consumes (`YYYY-MM-DD`, `YYYY-MM-DDTHH:MM`,
  `YYYY-MM-DDTHH:MM:SS`, optionally suffixed with `Z`); every other string is
  modelled as an invalid date.  Civil-date/day-number conversions use the
  standard era-based algorithm, matching the proleptic Gregorian calendar
  mandated by ECMA-262.
* JavaScript numbers that reach the validator's party-size check are modelled
  as `Option ℚ`: `none` stands for the non-finite values (`NaN`, `±Infinity`),
  which the code rejects in a single branch, and `some q` for a finite value.
  The comparisons involved (`< 1`, `> 20`) are exact in binary floating point
  for the values of interest, so `ℚ` is faithful for them.
* JavaScript's `Array.prototype.sort` (required stable since ES2019) with the
  comparator `(a, b) => a.when.getTime() - b.when.getTime()` is modelled by
  `List.insertionSort` on the corresponding non-strict order: a stable sort's
  output is uniquely determined by the input order and the comparator, so any
  stable sort is a faithful model.
* String helpers: `toLowerCase` and `trim` are modelled by the structural
  `jsToLower` and `jsTrim` below (ASCII-faithful; JavaScript's extra Unicode
  behaviour is irrelevant to the claims); `length` is `String.length`, which
  agrees with the UTF-16 `length` on the ASCII data the claims are about.
* Record fields that may be absent in JavaScript (`r.time`, `r.when`, ...)
  are modelled as strings with `""` for absence; this is faithful because the
  code only uses them in truthiness tests (`r.time || ...`), where `undefined`
  and `""` behave identically, and inside `String(... || "")` coercions.
-/

/-! ### JavaScript string primitives -/

/-- Character-list prefix test, written out structurally so that concrete
instances reduce by `decide`. -/
def leadEq : List Char → List Char → Bool
  | [], _ => true
  | _ :: _, [] => false
  | a :: as, b :: bs => decide (a = b) && leadEq as bs

/-- `hay.includes(needle)`: substring containment, JavaScript
`String.prototype.includes`. -/
def strIncludes (hay needle : String) : Bool :=
  (List.range (hay.data.length + 1)).any (fun i => leadEq needle.data (hay.data.drop i))

/-- `String.prototype.toLowerCase`, written structurally over the character
list so that concrete instances reduce inside the kernel. -/
def jsToLower (s : String) : String :=
  ⟨s.data.map Char.toLower⟩

/-- The whitespace class trimmed by `String.prototype.trim` (ASCII part). -/
def isWsChar (c : Char) : Bool :=
  decide (c = ' ' ∨ c = '\t' ∨ c = '\n' ∨ c = '\r' ∨ c = '\x0b' ∨ c = '\x0c')

/-- `String.prototype.trim`: strip leading and trailing whitespace. -/
def jsTrim (s : String) : String :=
  ⟨((s.data.dropWhile isWsChar).reverse.dropWhile isWsChar).reverse⟩

/-! ### Date model -/

/-- Civil date (year, month 1..12, day 1..31) from a day number (days since
1970-01-01), proleptic Gregorian, era-based algorithm.  This is the model of
ECMA-262's `YearFromTime`/`MonthFromTime`/`DateFromTime` composed with `Day`. -/
def civilFromDays (z0 : Int) : Int × Int × Int :=
  let z := z0 + 719468
  let era := z / 146097
  let doe := z % 146097
  let yoe := (doe - doe / 1460 + doe / 36524 - doe / 146096) / 365
  let doy := doe - (365 * yoe + yoe / 4 - yoe / 100)
  let mp := (5 * doy + 2) / 153
  let d := doy - (153 * mp + 2) / 5 + 1
  let m := mp + (if mp < 10 then 3 else -9)
  (yoe + era * 400 + (if m ≤ 2 then 1 else 0), m, d)

/-- Day number (days since 1970-01-01) of a civil date, proleptic Gregorian.
Model of ECMA-262's `MakeDay`. -/
def daysFromCivil (y0 m d : Int) : Int :=
  let y := y0 - (if m ≤ 2 then 1 else 0)
  let era := y / 400
  let yoe := y % 400
  let doy := (153 * (m + (if m > 2 then -3 else 9)) + 2) / 5 + d - 1
  let doe := yoe * 365 + yoe / 4 - yoe / 100 + doy
  era * 146097 + doe - 719468

/-- ECMA-262 `Day(t)`: the day number containing timestamp `t` (ms). -/
def dayNumber (t : Int) : Int := t / 86400000

/-- ECMA-262 `WeekDay(t)`: 0 = Sunday .. 6 = Saturday (`Date.prototype.getDay`
with a UTC host timezone). -/
def getDay (t : Int) : Int := (dayNumber t + 4) % 7

/-- `Date.prototype.getHours` (UTC host timezone): ECMA-262 `HourFromTime`. -/
def getHours (t : Int) : Int := t / 3600000 % 24

/-- `Date.prototype.getMinutes` (UTC host timezone): ECMA-262 `MinFromTime`. -/
def getMinutes (t : Int) : Int := t / 60000 % 60

/-- `Date.prototype.getFullYear` (UTC host timezone). -/
def getFullYear (t : Int) : Int := (civilFromDays (dayNumber t)).1

/-- `Date.prototype.getMonth` (UTC host timezone), 0-based as in JavaScript. -/
def getMonth (t : Int) : Int := (civilFromDays (dayNumber t)).2.1 - 1

/-- `Date.prototype.getDate` (UTC host timezone), day of month 1..31. -/
def getDate (t : Int) : Int := (civilFromDays (dayNumber t)).2.2

/-- Leap-year test of the proleptic Gregorian calendar. -/
def isLeapYear (y : Int) : Bool :=
  decide ((y % 4 = 0 ∧ y % 100 ≠ 0) ∨ y % 400 = 0)

/-- Number of days in month `m` (1..12) of year `y`. -/
def daysInMonth (y : Int) (m : Nat) : Nat :=
  if m = 1 ∨ m = 3 ∨ m = 5 ∨ m = 7 ∨ m = 8 ∨ m = 10 ∨ m = 12 then 31
  else if m = 4 ∨ m = 6 ∨ m = 9 ∨ m = 11 then 30
  else if isLeapYear y then 29 else 28

/-- One decimal digit. -/
def digitVal (c : Char) : Option Nat :=
  if c.isDigit then some (c.toNat - 48) else none

/-- Two zero-padded decimal digits, returning the rest of the input. -/
def read2 : List Char → Option (Nat × List Char)
  | c1 :: c2 :: rest =>
    match digitVal c1, digitVal c2 with
    | some a, some b => some (10 * a + b, rest)
    | _, _ => none
  | _ => none

/-- Four decimal digits (a year), returning the rest of the input. -/
def read4 : List Char → Option (Nat × List Char)
  | c1 :: c2 :: c3 :: c4 :: rest =>
    match digitVal c1, digitVal c2, digitVal c3, digitVal c4 with
    | some a, some b, some c, some d => some (1000 * a + 100 * b + 10 * c + d, rest)
    | _, _, _, _ => none
  | _ => none

/-- The `HH:MM[:SS][Z]` tail of an ISO date-time string. -/
def timeTail (cs : List Char) : Option (Nat × Nat × Nat) :=
  match read2 cs with
  | some (hh, ':' :: r1) =>
    match read2 r1 with
    | some (mi, r2) =>
      match r2 with
      | [] => some (hh, mi, 0)
      | ['Z'] => some (hh, mi, 0)
      | ':' :: r3 =>
        match read2 r3 with
        | some (ss, []) => some (hh, mi, ss)
        | some (ss, ['Z']) => some (hh, mi, ss)
        | _ => none
      | _ => none
    | none => none
  | _ => none

/-- `new Date(string)` restricted to the ISO-8601 forms described in the
module docstring: the millisecond timestamp, or `none` for an invalid date. -/
def parseDate (s : String) : Option Int :=
  match read4 s.data with
  | some (y, '-' :: r1) =>
    match read2 r1 with
    | some (m, '-' :: r2) =>
      match read2 r2 with
      | some (d, rest) =>
        if 1 ≤ m ∧ m ≤ 12 ∧ 1 ≤ d ∧ d ≤ daysInMonth (y : Int) m then
          match rest with
          | [] => some (86400000 * daysFromCivil (y : Int) (m : Int) (d : Int))
          | 'T' :: r3 =>
            match timeTail r3 with
            | some (hh, mi, ss) =>
              if hh ≤ 23 ∧ mi ≤ 59 ∧ ss ≤ 59 then
                some (86400000 * daysFromCivil (y : Int) (m : Int) (d : Int) +
                  3600000 * (hh : Int) + 60000 * (mi : Int) + 1000 * (ss : Int))
              else none
            | none => none
          | _ => none
        else none
      | none => none
    | _ => none
  | _ => none

/-! ### Data model -/

/-- A reservation record as consumed by the list and calendar components.
Absent fields are `""` (see the module docstring). -/
structure Reservation where
  guestName : String
  name : String
  phone : String
  status : String
  time : String
  whenF : String
  datetime : String
deriving DecidableEq

/-- The filter state of `ReservationList` (`filters.from/to/status/search`);
`""` means the field is inactive. -/
structure FilterSpec where
  fromS : String
  toS : String
  statusS : String
  searchS : String
deriving DecidableEq

/-- The field-alias chain `r.time || r.when || r.datetime`: the first truthy
(non-empty) alias, if any. -/
def aliasRaw (r : Reservation) : Option String :=
  if r.time ≠ "" then some r.time
  else if r.whenF ≠ "" then some r.whenF
  else if r.datetime ≠ "" then some r.datetime
  else none

/-- `String(r.guestName || r.name || "")`. -/
def guestAlias (r : Reservation) : String :=
  if r.guestName ≠ "" then r.guestName else r.name

/-! ### Filter engine (`filtered` in `ReservationList`) -/

/-- `new Date(r.time || r.when || r.datetime || 0)`: the final `|| 0` makes a
record with no (truthy) time field parse as `new Date(0)`, the epoch. -/
def dateOfRecord (r : Reservation) : Option Int :=
  match aliasRaw r with
  | none => some 0
  | some s => parseDate s

/-- JavaScript `d1 >= d2` on `Date`s: numeric comparison of time values, false
whenever either side is `NaN` (an invalid date). -/
def jsDateGE (a b : Option Int) : Bool :=
  match a, b with
  | some x, some y => decide (y ≤ x)
  | _, _ => false

/-- JavaScript `d1 <= d2` on `Date`s, false whenever either side is invalid. -/
def jsDateLE (a b : Option Int) : Bool :=
  match a, b with
  | some x, some y => decide (x ≤ y)
  | _, _ => false

/-- `fromOk`: `!filters.from || new Date(...) >= new Date(filters.from)`. -/
def fromOk (f : FilterSpec) (r : Reservation) : Bool :=
  if f.fromS = "" then true else jsDateGE (dateOfRecord r) (parseDate f.fromS)

/-- `toOk`: `!filters.to || new Date(...) <= new Date(filters.to)`. -/
def toOk (f : FilterSpec) (r : Reservation) : Bool :=
  if f.toS = "" then true else jsDateLE (dateOfRecord r) (parseDate f.toS)

/-- `statusOk`: `!filters.status || status === String(filters.status).toLowerCase()`
where `status` is the record's lower-cased status. -/
def statusOk (f : FilterSpec) (r : Reservation) : Bool :=
  if f.statusS = "" then true else decide (jsToLower r.status = jsToLower f.statusS)

/-- `const s = String(filters.search || "").trim().toLowerCase()`. -/
def searchTextOf (f : FilterSpec) : String :=
  jsToLower (jsTrim f.searchS)

/-- `searchOk`: `!s || guestName.toLowerCase().includes(s) || phone.toLowerCase().includes(s)`. -/
def searchOk (f : FilterSpec) (r : Reservation) : Bool :=
  if searchTextOf f = "" then true
  else strIncludes (jsToLower (guestAlias r)) (searchTextOf f) ||
    strIncludes (jsToLower r.phone) (searchTextOf f)

/-- The per-record filter predicate: `fromOk && toOk && statusOk && searchOk`. -/
def matchesSpec (f : FilterSpec) (r : Reservation) : Bool :=
  fromOk f r && toOk f r && statusOk f r && searchOk f r

/-- `filtered`: `list.filter(r => ...)` of `ReservationList`. -/
def filtered (rs : List Reservation) (f : FilterSpec) : List Reservation :=
  rs.filter (matchesSpec f)

/-! ### Calendar layout engine (`ReservationCalendar`) -/

/-- `startOfWeek`: midnight of the Monday at or before `t`'s calendar date.
`getDay` is read first, the time is zeroed (`setHours(0,0,0,0)`), and
`(day + 6) % 7` days are subtracted via `setDate`. -/
def startOfWeek (t : Int) : Int :=
  (dayNumber t - (getDay t + 6) % 7) * 86400000

/-- `addDays(d, n)`: `setDate(getDate() + n)`, i.e. `n` days later (no DST in
the UTC model). -/
def addDays (t : Int) (n : Int) : Int := t + n * 86400000

/-- The 7 consecutive days of the displayed week. -/
def weekDays (ws : Int) : List Int :=
  (List.range 7).map (fun i => addDays ws (i : Int))

/-- `keyOfDate`: the `${getFullYear()}-${getMonth()+1}-${getDate()}` day key. -/
def keyOfDate (t : Int) : String :=
  toString (getFullYear t) ++ "-" ++ toString (getMonth t + 1) ++ "-" ++ toString (getDate t)

/-- `parseDateSafe`: `new Date(s)` guarded by `isNaN(d.getTime())`; `none`
both for a missing argument and for an unparseable string. -/
def parseDateSafe (o : Option String) : Option Int :=
  match o with
  | none => none
  | some s => parseDate s

/-- A bucketed calendar item `{ r, when }`. -/
structure CalItem where
  r : Reservation
  whenT : Int
deriving DecidableEq

/-- The bucket map is a partial map from day keys to item lists: `none` models
a key absent from the JavaScript object. -/
def updateMap (m : String → Option (List CalItem)) (k : String) (v : List CalItem) :
    String → Option (List CalItem) :=
  fun k2 => if k2 = k then some v else m k2

/-- `days.forEach(d => map[keyOfDate(d)] = [])`. -/
def emptyBuckets (days : List Int) : String → Option (List CalItem) :=
  days.foldl (fun m d => updateMap m (keyOfDate d) []) (fun _ => none)

/-- One iteration of the record loop: parse the instant, skip when invalid or
when its day key has no bucket, otherwise push `{ r, when: t }`. -/
def pushRecord (m : String → Option (List CalItem)) (r : Reservation) :
    String → Option (List CalItem) :=
  match parseDateSafe (aliasRaw r) with
  | none => m
  | some t =>
    match m (keyOfDate t) with
    | none => m
    | some l => updateMap m (keyOfDate t) (l ++ [⟨r, t⟩])

/-- The bucket map after the record loop, before sorting. -/
def rawBuckets (days : List Int) (rs : List Reservation) :
    String → Option (List CalItem) :=
  rs.foldl pushRecord (emptyBuckets days)

/-- The sort order of a day's items: ascending by instant. -/
def itemLE (a b : CalItem) : Prop := a.whenT ≤ b.whenT

instance : DecidableRel itemLE := fun a b => decidable_of_iff (a.whenT ≤ b.whenT) Iff.rfl

instance : IsTotal CalItem itemLE := ⟨fun a b => Int.le_total a.whenT b.whenT⟩

instance : IsTrans CalItem itemLE := ⟨fun _ _ _ h1 h2 => le_trans h1 h2⟩

/-- `itemsByDay`: each bucket sorted ascending by instant
(`map[k].sort((a, b) => a.when.getTime() - b.when.getTime())`; a stable sort,
modelled by insertion sort — see the module docstring). -/
def itemsByDay (days : List Int) (rs : List Reservation) :
    String → Option (List CalItem) :=
  fun k => (rawBuckets days rs k).map (fun l => l.insertionSort itemLE)

/-- The original-order contents of bucket `k`: the records, in list order,
whose instant parses and whose day key is `k`.  (Proved below to be what the
record loop puts into an existing bucket `k`.) -/
def collectItems (rs : List Reservation) (k : String) : List CalItem :=
  rs.filterMap (fun r =>
    match parseDateSafe (aliasRaw r) with
    | none => none
    | some t => if keyOfDate t = k then some ⟨r, t⟩ else none)

/-- `positionForTime`: percentage position of a time within the 09:00–22:00
visible window, clamped.  (The source wraps this percentage in a CSS `calc`
string with a fixed `-10px` rendering offset; the percentage is the layout
quantity the spec talks about.) -/
def positionForTime (t : Int) : ℚ :=
  let mins : Int := getHours t * 60 + getMinutes t
  let rel : Int := min (max (mins - 540) 0) 780
  (rel : ℚ) / 780 * 100

/-- `dayColumnIndex`: `days.findIndex(d => keyOfDate(d) === keyOfDate(day))`,
`-1` when absent as in JavaScript. -/
def dayColumnIndex (days : List Int) (day : Int) : Int :=
  let i := days.findIdx (fun d => keyOfDate d = keyOfDate day)
  if i = days.length then -1 else (i : Int)

/-! ### Form validator (`ReservationForm`) -/

/-- A form draft.  `size` is the number `Number(draft.size)` evaluates to,
with `none` for the non-finite values (see the module docstring); the other
fields are the `String(draft.x || "")` coercions the validator applies. -/
structure Draft where
  guestName : String
  phone : String
  time : String
  notes : String
  size : Option ℚ

/-- The character class of the loose phone pattern `[+()\-.\s\d]`. -/
def phoneCharOk (c : Char) : Bool :=
  decide (c = '+') || decide (c = '(') || decide (c = ')') || decide (c = '-') ||
    decide (c = '.') || c.isDigit || decide (c = ' ') || decide (c = '\t') ||
    decide (c = '\n') || decide (c = '\r') || decide (c = '\x0b') || decide (c = '\x0c')

/-- `constraints.phonePattern.test(phone)`: `/^[+()\-.\s\d]{7,20}$/`. -/
def phonePatternTest (p : String) : Bool :=
  decide (7 ≤ p.length) && decide (p.length ≤ 20) && p.data.all phoneCharOk

/-- The `guestName` checks of `validate` (required, trimmed length in [2,80]). -/
def nameErrs (d : Draft) : List (String × String) :=
  let nm := jsTrim d.guestName
  if nm = "" then [("guestName", "Guest name is required")]
  else if nm.length < 2 then [("guestName", "Name must be at least 2 characters")]
  else if nm.length > 80 then [("guestName", "Name cannot exceed 80 characters")]
  else []

/-- The `phone` check of `validate` (optional; pattern when present). -/
def phoneErrs (d : Draft) : List (String × String) :=
  let ph := jsTrim d.phone
  if ph ≠ "" ∧ phonePatternTest ph = false then [("phone", "Enter a valid phone number")]
  else []

/-- The `size` checks of `validate`:
`!Number.isFinite(size) || size < 1` then `size > 20`. -/
def sizeErrs (d : Draft) : List (String × String) :=
  match d.size with
  | none => [("size", "Party size must be at least 1")]
  | some q =>
    if q < 1 then [("size", "Party size must be at least 1")]
    else if q > 20 then [("size", "Party size cannot exceed 20")]
    else []

/-- `isFutureOrNow`: the string parses and its time value is at least
`now - 60_000` (one minute of clock skew). -/
def isFutureOrNow (s : String) (now : Int) : Bool :=
  match parseDate s with
  | none => false
  | some t => decide (now - 60000 ≤ t)

/-- The `time` checks of `validate` (required; then `isFutureOrNow`). -/
def timeErrs (d : Draft) (now : Int) : List (String × String) :=
  if d.time = "" then [("time", "Reservation date/time is required")]
  else if isFutureOrNow d.time now = false then [("time", "Time must be in the future")]
  else []

/-- The `notes` check of `validate` (length ≤ 240). -/
def notesErrs (d : Draft) : List (String × String) :=
  if d.notes.length > 240 then [("notes", "Notes cannot exceed 240 characters")]
  else []

/-- `validate(draft)`: the field→message mapping, assembled in the source's
field order.  `now` is the ambient `Date.now()` made explicit. -/
def validate (d : Draft) (now : Int) : List (String × String) :=
  nameErrs d ++ phoneErrs d ++ sizeErrs d ++ timeErrs d now ++ notesErrs d

/-- Whether the error mapping contains an entry for field `k`. -/
def hasErr (es : List (String × String)) (k : String) : Bool :=
  es.any (fun p => decide (p.1 = k))

/-! ### Concrete sample data used in counterexamples and witnesses -/

/-- A record with no time field under any alias. -/
def rNoTime : Reservation := ⟨"Ann", "", "", "pending", "", "", ""⟩

/-- A record whose time field is present but unparseable. -/
def rBadTime : Reservation := ⟨"Bo", "", "", "confirmed", "not-a-date", "", ""⟩

/-- A filter whose `from` bound is non-empty and parses to the epoch. -/
def fEpochFrom : FilterSpec := ⟨"1970-01-01", "", "", ""⟩

/-- A filter whose `from` bound parses to an instant after the epoch. -/
def fJan2024From : FilterSpec := ⟨"2024-01-01", "", "", ""⟩

/-- A filter with both time bounds active. -/
def fBounds : FilterSpec := ⟨"2024-01-01", "2024-12-31", "", ""⟩

/-- The timestamp of 2024-01-01T00:00 (a Monday). -/
def wsMon : Int := 1704067200000

/-- The timestamp of 2024-01-03T23:00 (a Wednesday, outside visible hours). -/
def tWed23 : Int := 1704322800000

/-- A reservation on Wednesday 2024-01-03 at 23:00. -/
def recWed : Reservation := ⟨"Cal", "", "", "pending", "2024-01-03T23:00", "", ""⟩

/-- Reservation at 2024-01-03T10:00 (first of two with identical instants). -/
def recA : Reservation := ⟨"A1", "", "", "pending", "2024-01-03T10:00", "", ""⟩

/-- Reservation at 2024-01-03T09:00. -/
def recB : Reservation := ⟨"B1", "", "", "pending", "2024-01-03T09:00", "", ""⟩

/-- Reservation at 2024-01-03T10:00 (second of two with identical instants). -/
def recC : Reservation := ⟨"C1", "", "", "pending", "2024-01-03T10:00", "", ""⟩

/-- Timestamp of 2024-01-03T10:00. -/
def tA : Int := 1704276000000

/-- Timestamp of 2024-01-03T09:00. -/
def tB : Int := 1704272400000

/-- A draft whose only questionable field is the non-integer party size 5/2. -/
def draftHalf : Draft := ⟨"Jane Doe", "", "2999-01-01T10:00", "", some (mkRat 5 2)⟩

/-- A draft whose only invalid field is the phone `"abc"`. -/
def draftPhoneAbc : Draft := ⟨"Jane Doe", "abc", "2999-01-01T10:00", "", some 2⟩

/-! ### Helper lemmas -/

/-- The search text of the empty spec is empty. -/
theorem searchTextOf_empty : searchTextOf ⟨"", "", "", ""⟩ = "" := by decide

/-- Claim C9: filtering with the empty spec (all of `from`, `to`, `status`,
`search` empty) returns the record list unchanged: every element is retained
and the original order is preserved. -/
theorem filtered_empty_spec_id (R : List Reservation) :
    filtered R ⟨"", "", "", ""⟩ = R := by
  refine List.filter_eq_self.mpr (fun r _ => ?_)
  simp [matchesSpec, fromOk, toOk, statusOk, searchOk, searchTextOf_empty]

/-- Claim C7: the filter is AND-composed.  `filtered R S` is a subsequence of
`R` (original relative order preserved), and every retained record satisfies
each active clause of `S`: the from-bound (`instant ≥ from` in the JavaScript
date order), the to-bound (`instant ≤ to`), case-insensitive status equality,
and case-insensitive substring match of the trimmed search text against guest
name or phone; each clause holds vacuously when its field is empty (then the
clause imposes nothing, which the `fromOk/toOk/statusOk/searchOk` definitions
make true outright). -/
theorem filtered_and_composition (R : List Reservation) (S : FilterSpec) :
    List.Sublist (filtered R S) R ∧
    ∀ r ∈ filtered R S,
      (S.fromS ≠ "" → jsDateGE (dateOfRecord r) (parseDate S.fromS) = true) ∧
      (S.toS ≠ "" → jsDateLE (dateOfRecord r) (parseDate S.toS) = true) ∧
      (S.statusS ≠ "" → jsToLower r.status = jsToLower S.statusS) ∧
      (searchTextOf S ≠ "" →
        (strIncludes (jsToLower (guestAlias r)) (searchTextOf S) ||
          strIncludes (jsToLower r.phone) (searchTextOf S)) = true) := by
  refine ⟨List.filter_sublist _, fun r hr => ?_⟩
  have hm := (List.mem_filter.mp hr).2
  simp only [matchesSpec, Bool.and_eq_true] at hm
  obtain ⟨⟨⟨h1, h2⟩, h3⟩, h4⟩ := hm
  refine ⟨fun hne => ?_, fun hne => ?_, fun hne => ?_, fun hne => ?_⟩
  · rwa [fromOk, if_neg hne] at h1
  · rwa [toOk, if_neg hne] at h2
  · rw [statusOk, if_neg hne] at h3
    exact of_decide_eq_true h3
  · rwa [searchOk, if_neg hne] at h4

/-- Witness for C7 at a concrete record and spec. -/
theorem filtered_and_composition_witness :
    List.Sublist (filtered [recWed] fBounds) [recWed] ∧
    jsDateGE (dateOfRecord recWed) (parseDate fBounds.fromS) = true := by
  refine ⟨(filtered_and_composition [recWed] fBounds).1, ?_⟩
  exact ((filtered_and_composition [recWed] fBounds).2 recWed (by decide)).1 (by decide)

/-- Claim C10: `startOfWeek` is idempotent — its result is a fixpoint — and
the result is at local midnight, falls on a Monday (`getDay = 1`), and lies at
most 6 days at or before the input's calendar day. -/
theorem startOfWeek_normalization (t : Int) :
    startOfWeek (startOfWeek t) = startOfWeek t ∧
    startOfWeek t % 86400000 = 0 ∧
    getDay (startOfWeek t) = 1 ∧
    dayNumber t - 6 ≤ dayNumber (startOfWeek t) ∧
    dayNumber (startOfWeek t) ≤ dayNumber t := by
  simp only [startOfWeek, getDay, dayNumber]
  omega

/-- Claim C1 counterexample: a record with no parseable instant (here: no time
field at all, which the filter coerces to the epoch-zero instant) does NOT
fail every active `from` bound — with the non-empty bound `"1970-01-01"`,
which parses to the epoch itself, the record passes the bound and is retained,
so it is not excluded from time-based filtering. -/
theorem epoch_record_passes_epoch_from_bound :
    fEpochFrom.fromS ≠ "" ∧
    aliasRaw rNoTime = none ∧
    dateOfRecord rNoTime = some 0 ∧
    fromOk fEpochFrom rNoTime = true ∧
    filtered [rNoTime] fEpochFrom = [rNoTime] := by
  decide

/-- Claim C1 (amended): with a non-empty `from` bound, a record whose time
field is absent is treated as the epoch-zero instant, and it fails the bound
exactly when the bound parses to an instant strictly after the epoch (an
unparseable bound also rejects it); a record whose time field is present but
unparseable is compared as an invalid instant — not epoch zero — and fails
every active `from` bound. -/
theorem from_bound_edge_cases (r : Reservation) (f : FilterSpec)
    (hne : f.fromS ≠ "") :
    (aliasRaw r = none →
      dateOfRecord r = some 0 ∧
      (fromOk f r = false ↔ ∀ T, parseDate f.fromS = some T → 0 < T)) ∧
    (∀ s, aliasRaw r = some s → parseDate s = none →
      dateOfRecord r = none ∧ fromOk f r = false) := by
  constructor
  · intro ha
    have hd : dateOfRecord r = some 0 := by simp [dateOfRecord, ha]
    refine ⟨hd, ?_⟩
    rw [fromOk, if_neg hne, hd]
    cases hp : parseDate f.fromS with
    | none => simp [jsDateGE, hp]
    | some T =>
      simp only [jsDateGE]
      constructor
      · intro hfalse T2 hT2
        cases hT2
        simp only [decide_eq_false_iff_not] at hfalse
        omega
      · intro hall
        have hT := hall T rfl
        simp only [decide_eq_false_iff_not]
        omega
  · intro s ha hp
    have hd : dateOfRecord r = none := by simp [dateOfRecord, ha, hp]
    refine ⟨hd, ?_⟩
    rw [fromOk, if_neg hne, hd]
    rfl

/-- Witness for the amended C1 at concrete inputs: with `from = "2024-01-01"`
the absent-time record fails the bound, and the unparseable-time record is
invalid and fails the bound. -/
theorem from_bound_edge_cases_witness :
    (dateOfRecord rNoTime = some 0 ∧ fromOk fJan2024From rNoTime = false) ∧
    (dateOfRecord rBadTime = none ∧ fromOk fJan2024From rBadTime = false) := by
  constructor
  · obtain ⟨hd, hiff⟩ :=
      (from_bound_edge_cases rNoTime fJan2024From (by decide)).1 (by decide)
    refine ⟨hd, hiff.mpr ?_⟩
    intro T hT
    rw [show parseDate fJan2024From.fromS = some 1704067200000 from by decide] at hT
    cases hT
    decide
  · exact (from_bound_edge_cases rBadTime fJan2024From (by decide)).2
      "not-a-date" (by decide) (by decide)

/-- Claim C2: a record whose time field is present but unparseable compares as
an invalid date: it fails the from-bound clause whenever `from` is non-empty
and the to-bound clause whenever `to` is non-empty, passes both when the
bounds are empty, and is not the epoch-zero instant; only a record whose time
field is absent is coerced to epoch zero, and such a record satisfies any `to`
bound that parses to an instant at or after the epoch. -/
theorem invalid_instant_time_clauses :
    (∀ (r : Reservation) (s : String) (f : FilterSpec),
      aliasRaw r = some s → parseDate s = none →
      dateOfRecord r = none ∧
      (f.fromS ≠ "" → fromOk f r = false) ∧
      (f.toS ≠ "" → toOk f r = false) ∧
      (f.fromS = "" → fromOk f r = true) ∧
      (f.toS = "" → toOk f r = true)) ∧
    (∀ r : Reservation, aliasRaw r = none → dateOfRecord r = some 0) ∧
    (∀ (r : Reservation) (f : FilterSpec) (T : Int),
      aliasRaw r = none → parseDate f.toS = some T → 0 ≤ T → toOk f r = true) := by
  refine ⟨fun r s f ha hp => ?_, fun r ha => by simp [dateOfRecord, ha], fun r f T ha hp hT => ?_⟩
  · have hd : dateOfRecord r = none := by simp [dateOfRecord, ha, hp]
    refine ⟨hd, fun hne => ?_, fun hne => ?_, fun he => ?_, fun he => ?_⟩
    · rw [fromOk, if_neg hne, hd]; rfl
    · rw [toOk, if_neg hne, hd]; rfl
    · rw [fromOk, if_pos he]
    · rw [toOk, if_pos he]
  · have hd : dateOfRecord r = some 0 := by simp [dateOfRecord, ha]
    have hne : f.toS ≠ "" := by
      intro he
      rw [he] at hp
      exact Option.noConfusion ((by decide : parseDate "" = none).symm.trans hp)
    rw [toOk, if_neg hne, hd, hp]
    simpa [jsDateLE] using hT

/-- Witness for C2 at concrete inputs. -/
theorem invalid_instant_time_clauses_witness :
    (dateOfRecord rBadTime = none ∧ fromOk fBounds rBadTime = false ∧
      toOk fBounds rBadTime = false) ∧
    dateOfRecord rNoTime = some 0 ∧
    toOk fBounds rNoTime = true := by
  obtain ⟨hd, h1, h2, -, -⟩ :=
    invalid_instant_time_clauses.1 rBadTime "not-a-date" fBounds (by decide) (by decide)
  refine ⟨⟨hd, h1 (by decide), h2 (by decide)⟩,
    invalid_instant_time_clauses.2.1 rNoTime (by decide), ?_⟩
  exact invalid_instant_time_clauses.2.2 rNoTime fBounds 1735603200000 (by decide)
    (by decide) (by decide)

/-- `hasErr` distributes over appending error blocks. -/
theorem hasErr_append (es1 es2 : List (String × String)) (k : String) :
    hasErr (es1 ++ es2) k = (hasErr es1 k || hasErr es2 k) := by
  simp [hasErr]

/-- The guest-name block never reports under the `size` key. -/
theorem nameErrs_size_false (d : Draft) : hasErr (nameErrs d) "size" = false := by
  simp only [nameErrs]
  repeat' split
  all_goals decide

/-- The phone block never reports under the `size` key. -/
theorem phoneErrs_size_false (d : Draft) : hasErr (phoneErrs d) "size" = false := by
  simp only [phoneErrs]
  repeat' split
  all_goals decide

/-- The time block never reports under the `size` key. -/
theorem timeErrs_size_false (d : Draft) (now : Int) :
    hasErr (timeErrs d now) "size" = false := by
  simp only [timeErrs]
  repeat' split
  all_goals decide

/-- The notes block never reports under the `size` key. -/
theorem notesErrs_size_false (d : Draft) : hasErr (notesErrs d) "size" = false := by
  simp only [notesErrs]
  repeat' split
  all_goals decide

/-- Claim C3 counterexample: the draft `draftHalf`, whose party size is the
finite non-integer 5/2 (denominator 2) lying inside [1, 20], receives NO size
error from `validate` — the validator checks finiteness and the range only,
never integrality, so "error exactly when not a finite integer in [1, 20]" is
false at this input. -/
theorem size_non_integer_accepted :
    hasErr (validate draftHalf 0) "size" = false ∧
    draftHalf.size = some (mkRat 5 2) ∧
    (mkRat 5 2).den = 2 ∧
    1 ≤ mkRat 5 2 ∧ mkRat 5 2 ≤ 20 := by
  decide

/-- Claim C3 (amended): `validate` reports an error for the `size` field
exactly when the party size is not a finite number in [1, 20] — `none`
(non-finite), below 1, or above 20; integrality is not checked by `validate`
(the form coerces its numeric input with `parseInt` before `validate` ever
sees it).  In particular sizes 0 and 21 yield a size error and sizes 1 and 20
do not. -/
theorem validate_size_error_iff (d : Draft) (now : Int) :
    hasErr (validate d now) "size" = true ↔
      (d.size = none ∨ ∃ q, d.size = some q ∧ (q < 1 ∨ 20 < q)) := by
  rw [validate, hasErr_append, hasErr_append, hasErr_append, hasErr_append,
    nameErrs_size_false, phoneErrs_size_false, timeErrs_size_false, notesErrs_size_false]
  simp only [Bool.false_or, Bool.or_false]
  cases hq : d.size with
  | none => simp [sizeErrs, hq, hasErr]
  | some q =>
    by_cases h1 : q < 1
    · simp [sizeErrs, hq, h1, hasErr]
    · by_cases h2 : q > 20
      · simp [sizeErrs, hq, h1, h2, hasErr]
      · simp [sizeErrs, hq, h1, h2, hasErr]

/-- Witness for the amended C3 at the claim's boundary party sizes. -/
theorem validate_size_error_iff_witness :
    (hasErr (validate ⟨"Jane Doe", "", "2999-01-01T10:00", "", some 0⟩ 0) "size" = true) ∧
    (hasErr (validate ⟨"Jane Doe", "", "2999-01-01T10:00", "", some 1⟩ 0) "size" = false) ∧
    (hasErr (validate ⟨"Jane Doe", "", "2999-01-01T10:00", "", some 20⟩ 0) "size" = false) ∧
    (hasErr (validate ⟨"Jane Doe", "", "2999-01-01T10:00", "", some 21⟩ 0) "size" = true) := by
  refine ⟨(validate_size_error_iff _ 0).mpr (Or.inr ⟨0, rfl, Or.inl (by norm_num)⟩), ?_, ?_,
    (validate_size_error_iff _ 0).mpr (Or.inr ⟨21, rfl, Or.inr (by norm_num)⟩)⟩
  · rw [Bool.eq_false_iff]
    intro h
    rcases (validate_size_error_iff _ 0).mp h with h0 | ⟨q, hq, hb⟩
    · exact Option.noConfusion h0
    · cases Option.some.inj hq
      norm_num at hb
  · rw [Bool.eq_false_iff]
    intro h
    rcases (validate_size_error_iff _ 0).mp h with h0 | ⟨q, hq, hb⟩
    · exact Option.noConfusion h0
    · cases Option.some.inj hq
      norm_num at hb

/-- The guest-name block's keys are within `["guestName"]`. -/
theorem nameErrs_fst_sub (d : Draft) :
    List.Sublist ((nameErrs d).map Prod.fst) ["guestName"] := by
  simp only [nameErrs]
  repeat' split
  all_goals decide

/-- The phone block's keys are within `["phone"]`. -/
theorem phoneErrs_fst_sub (d : Draft) :
    List.Sublist ((phoneErrs d).map Prod.fst) ["phone"] := by
  simp only [phoneErrs]
  repeat' split
  all_goals decide

/-- The size block's keys are within `["size"]`. -/
theorem sizeErrs_fst_sub (d : Draft) :
    List.Sublist ((sizeErrs d).map Prod.fst) ["size"] := by
  simp only [sizeErrs]
  repeat' split
  all_goals decide

/-- The time block's keys are within `["time"]`. -/
theorem timeErrs_fst_sub (d : Draft) (now : Int) :
    List.Sublist ((timeErrs d now).map Prod.fst) ["time"] := by
  simp only [timeErrs]
  repeat' split
  all_goals decide

/-- The notes block's keys are within `["notes"]`. -/
theorem notesErrs_fst_sub (d : Draft) :
    List.Sublist ((notesErrs d).map Prod.fst) ["notes"] := by
  simp only [notesErrs]
  repeat' split
  all_goals decide

/-- Claim C8: the validator is total and per-field independent.  For every
draft (and every current time), `validate` returns a mapping whose keys are
drawn, without repetition, from the five field names — in the shallow
embedding `validate` is a total function, so it cannot throw — and when every
field other than `phone` is valid while the trimmed phone is non-empty and
fails the pattern, the result is exactly the single `phone` error entry. -/
theorem validate_total_and_independent (d : Draft) (now : Int) :
    List.Sublist ((validate d now).map Prod.fst)
      ["guestName", "phone", "size", "time", "notes"] ∧
    ((validate d now).map Prod.fst).Nodup ∧
    (nameErrs d = [] → sizeErrs d = [] → timeErrs d now = [] → notesErrs d = [] →
      jsTrim d.phone ≠ "" → phonePatternTest (jsTrim d.phone) = false →
      validate d now = [("phone", "Enter a valid phone number")]) := by
  have hsub : List.Sublist ((validate d now).map Prod.fst)
      ["guestName", "phone", "size", "time", "notes"] := by
    have h := ((nameErrs_fst_sub d).append ((phoneErrs_fst_sub d).append
      ((sizeErrs_fst_sub d).append ((timeErrs_fst_sub d now).append
        (notesErrs_fst_sub d)))))
    simpa [validate] using h
  refine ⟨hsub, List.Nodup.sublist hsub (by decide), ?_⟩
  intro h1 h2 h3 h4 hp1 hp2
  rw [validate, h1, h2, h3, h4]
  simp only [phoneErrs]
  rw [if_pos ⟨hp1, hp2⟩]
  rfl

/-- Witness for C8: the draft with phone `"abc"` and all other fields valid
produces exactly one error entry, keyed `phone`. -/
theorem validate_total_and_independent_witness :
    validate draftPhoneAbc 0 = [("phone", "Enter a valid phone number")] :=
  (validate_total_and_independent draftPhoneAbc 0).2.2 (by decide) (by decide)
    (by decide) (by decide) (by decide) (by decide)

/-- Applying the bucket-initialisation fold: a key is mapped to `some []` when
it is the key of one of the days, and left untouched otherwise. -/
theorem foldl_update_apply (days : List Int) (m : String → Option (List CalItem))
    (k : String) :
    (days.foldl (fun m2 d => updateMap m2 (keyOfDate d) []) m) k
      = if k ∈ days.map keyOfDate then some [] else m k := by
  induction days generalizing m with
  | nil => simp
  | cons d ds ih =>
    simp only [List.foldl_cons, List.map_cons, List.mem_cons]
    rw [ih]
    by_cases h1 : k ∈ ds.map keyOfDate
    · simp [h1]
    · by_cases h2 : k = keyOfDate d
      · simp [h1, h2, updateMap]
      · simp [h1, h2, updateMap]

/-- `emptyBuckets` has exactly the window's day keys, each mapped to `[]`. -/
theorem emptyBuckets_apply (days : List Int) (k : String) :
    emptyBuckets days k = if k ∈ days.map keyOfDate then some [] else none :=
  foldl_update_apply days (fun _ => none) k

/-- Applying the record-push fold: every existing bucket `k` receives, in
original record order, exactly the records whose instant parses and whose day
key is `k`; absent keys stay absent. -/
theorem foldl_push_apply (rs : List Reservation) (m : String → Option (List CalItem))
    (k : String) :
    (rs.foldl pushRecord m) k = (m k).map (fun l => l ++ collectItems rs k) := by
  induction rs generalizing m with
  | nil => cases h : m k <;> simp [collectItems, h]
  | cons r rs ih =>
    simp only [List.foldl_cons]
    rw [ih]
    cases hp : parseDateSafe (aliasRaw r) with
    | none =>
      simp [pushRecord, hp, collectItems, List.filterMap_cons]
    | some t =>
      cases hm : m (keyOfDate t) with
      | none =>
        simp only [pushRecord, hp, hm]
        by_cases hk : keyOfDate t = k
        · rw [hk] at hm
          simp [collectItems, List.filterMap_cons, hp, hk, hm]
        · simp [collectItems, List.filterMap_cons, hp, hk]
      | some l0 =>
        simp only [pushRecord, hp, hm]
        by_cases hk : k = keyOfDate t
        · subst hk
          simp [updateMap, hm, collectItems, List.filterMap_cons, hp]
        · have hk2 : ¬ keyOfDate t = k := fun h => hk h.symm
          simp [updateMap, hk, hk2, collectItems, List.filterMap_cons, hp]

/-- The pre-sort bucket map, in closed form. -/
theorem rawBuckets_apply (days : List Int) (rs : List Reservation) (k : String) :
    rawBuckets days rs k
      = if k ∈ days.map keyOfDate then some (collectItems rs k) else none := by
  rw [rawBuckets, foldl_push_apply, emptyBuckets_apply]
  by_cases h : k ∈ days.map keyOfDate <;> simp [h]

/-- The sorted bucket map, in closed form. -/
theorem itemsByDay_apply (days : List Int) (rs : List Reservation) (k : String) :
    itemsByDay days rs k
      = if k ∈ days.map keyOfDate
        then some ((collectItems rs k).insertionSort itemLE) else none := by
  rw [itemsByDay, rawBuckets_apply]
  by_cases h : k ∈ days.map keyOfDate <;> simp [h]

/-- Membership in a pre-sort bucket, characterised. -/
theorem mem_collectItems (rs : List Reservation) (k : String) (r : Reservation)
    (t : Int) :
    CalItem.mk r t ∈ collectItems rs k
      ↔ r ∈ rs ∧ parseDateSafe (aliasRaw r) = some t ∧ keyOfDate t = k := by
  simp only [collectItems, List.mem_filterMap]
  constructor
  · rintro ⟨r0, hr0, hf⟩
    split at hf
    · exact absurd hf (by simp)
    · rename_i t0 hp
      split at hf
      · rename_i hk
        have h12 := Option.some.inj hf
        rw [CalItem.mk.injEq] at h12
        obtain ⟨rfl, rfl⟩ := h12
        exact ⟨hr0, hp, hk⟩
      · exact absurd hf (by simp)
  · rintro ⟨hr, hp, hk⟩
    exact ⟨r, hr, by simp [hp, hk]⟩

/-- Claim C4: calendar bucket completeness.  For every record list and week
start, a bucket exists exactly for the day keys of the 7-day window, and an
item `{r, t}` lies in the bucket keyed `k` precisely when `r` is one of the
records, its instant parses to `t`, and `k` is the day key of `t`'s local
calendar date — hence a record with a parseable instant whose day key is in
the window appears in exactly the one bucket keyed by its local
year/month/day, and a record with an unparseable or missing instant, or a day
key outside the window, appears in no bucket. -/
theorem calendar_bucket_completeness (rs : List Reservation) (ws : Int) :
    (∀ k, (∃ l, itemsByDay (weekDays ws) rs k = some l)
        ↔ k ∈ (weekDays ws).map keyOfDate) ∧
    (∀ (r : Reservation) (t : Int) (k : String) (l : List CalItem),
      itemsByDay (weekDays ws) rs k = some l →
      (CalItem.mk r t ∈ l
        ↔ r ∈ rs ∧ parseDateSafe (aliasRaw r) = some t ∧ keyOfDate t = k)) := by
  constructor
  · intro k
    rw [itemsByDay_apply]
    by_cases h : k ∈ (weekDays ws).map keyOfDate <;> simp [h]
  · intro r t k l hl
    rw [itemsByDay_apply] at hl
    by_cases h : k ∈ (weekDays ws).map keyOfDate
    · rw [if_pos h] at hl
      cases Option.some.inj hl
      rw [List.mem_insertionSort, mem_collectItems]
    · rw [if_neg h] at hl
      exact absurd hl (by simp)

/-- Witness for C4: in the week of Monday 2024-01-01, the record at
2024-01-03T23:00 appears in the bucket keyed by its own day key. -/
theorem calendar_bucket_completeness_witness :
    CalItem.mk recWed tWed23 ∈ [CalItem.mk recWed tWed23] ∧
    keyOfDate tWed23 ∈ (weekDays wsMon).map keyOfDate := by
  refine ⟨((calendar_bucket_completeness [recWed] wsMon).2 recWed tWed23
      (keyOfDate tWed23) [CalItem.mk recWed tWed23] (by decide)).mpr
      ⟨by decide, by decide, rfl⟩, ?_⟩
  exact ((calendar_bucket_completeness [recWed] wsMon).1 (keyOfDate tWed23)).mp
    ⟨[CalItem.mk recWed tWed23], by decide⟩

/-- Claim C6: calendar bucket ordering.  Within each bucket the instants are
non-decreasing (the list is pairwise ordered by `itemLE`), and the sort is
stable: two items with identical instants appear in the sorted bucket in the
same relative order they had in the pre-sort bucket, which lists records in
their original order. -/
theorem calendar_bucket_ordering (rs : List Reservation) (ws : Int) (k : String)
    (raw l : List CalItem)
    (hraw : rawBuckets (weekDays ws) rs k = some raw)
    (hl : itemsByDay (weekDays ws) rs k = some l) :
    List.Pairwise itemLE l ∧
    ∀ a b : CalItem, a.whenT = b.whenT →
      List.Sublist [a, b] raw → List.Sublist [a, b] l := by
  have hsort : l = raw.insertionSort itemLE := by
    rw [itemsByDay, hraw] at hl
    exact (Option.some.inj hl).symm
  subst hsort
  refine ⟨List.sorted_insertionSort itemLE raw, fun a b hab hsub => ?_⟩
  exact List.pair_sublist_insertionSort (le_of_eq hab) hsub

/-- Witness for C6: a bucket with two tied items (10:00 twice, surrounding a
9:00 item in list order) is sorted with the tie in original order. -/
theorem calendar_bucket_ordering_witness :
    List.Pairwise itemLE
      [CalItem.mk recB tB, CalItem.mk recA tA, CalItem.mk recC tA] ∧
    List.Sublist [CalItem.mk recA tA, CalItem.mk recC tA]
      [CalItem.mk recB tB, CalItem.mk recA tA, CalItem.mk recC tA] := by
  have h := calendar_bucket_ordering [recA, recB, recC] wsMon "2024-1-3"
    [CalItem.mk recA tA, CalItem.mk recB tB, CalItem.mk recC tA]
    [CalItem.mk recB tB, CalItem.mk recA tA, CalItem.mk recC tA]
    (by decide) (by decide)
  exact ⟨h.1, h.2 (CalItem.mk recA tA) (CalItem.mk recC tA) rfl (by decide)⟩

/-- Claim C5: vertical position and the out-of-window scenario.  For every
instant, `positionForTime` is the percentage obtained by linearly
interpolating the local time-of-day (hours·60 + minutes) between the fixed
visible-hour bounds 09:00 (540 min) and 22:00 (1320 min), clamped to
[0, 100]: it always lies in [0, 100], equals the pure linear interpolation
inside the window, and equals the nearest edge outside it.  In particular the
reservation at 2024-01-03T23:00 in the week of Monday 2024-01-01 is still
bucketed into Wednesday's bucket, its vertical position is clamped to 100%,
and its horizontal column is 2, the zero-based index of its day in the 7-day
window. -/
theorem position_interpolation_and_scenario :
    (∀ t : Int,
      0 ≤ positionForTime t ∧ positionForTime t ≤ 100 ∧
      (540 ≤ getHours t * 60 + getMinutes t → getHours t * 60 + getMinutes t ≤ 1320 →
        positionForTime t
          = ((getHours t * 60 + getMinutes t - 540 : Int) : ℚ) / 780 * 100) ∧
      (getHours t * 60 + getMinutes t ≤ 540 → positionForTime t = 0) ∧
      (1320 ≤ getHours t * 60 + getMinutes t → positionForTime t = 100)) ∧
    (parseDate "2024-01-01" = some wsMon ∧ startOfWeek wsMon = wsMon ∧
     parseDate "2024-01-03T23:00" = some tWed23 ∧
     itemsByDay (weekDays wsMon) [recWed] (keyOfDate tWed23)
       = some [CalItem.mk recWed tWed23] ∧
     keyOfDate tWed23 = "2024-1-3" ∧
     getHours tWed23 = 23 ∧
     positionForTime tWed23 = 100 ∧
     dayColumnIndex (weekDays wsMon) tWed23 = 2) := by
  have hgen : ∀ t : Int,
      0 ≤ positionForTime t ∧ positionForTime t ≤ 100 ∧
      (540 ≤ getHours t * 60 + getMinutes t → getHours t * 60 + getMinutes t ≤ 1320 →
        positionForTime t
          = ((getHours t * 60 + getMinutes t - 540 : Int) : ℚ) / 780 * 100) ∧
      (getHours t * 60 + getMinutes t ≤ 540 → positionForTime t = 0) ∧
      (1320 ≤ getHours t * 60 + getMinutes t → positionForTime t = 100) := by
    intro t
    have key : positionForTime t
        = ((min (max (getHours t * 60 + getMinutes t - 540) 0) 780 : Int) : ℚ)
          / 780 * 100 := rfl
    have hR0 : (0 : Int) ≤ min (max (getHours t * 60 + getMinutes t - 540) 0) 780 := by
      omega
    have hR780 : min (max (getHours t * 60 + getMinutes t - 540) 0) 780 ≤ (780 : Int) := by
      omega
    refine ⟨?_, ?_, ?_, ?_, ?_⟩
    · rw [key]
      have : (0 : ℚ) ≤ ((min (max (getHours t * 60 + getMinutes t - 540) 0) 780 : Int) : ℚ) := by
        exact_mod_cast hR0
      positivity
    · rw [key]
      have h1 : ((min (max (getHours t * 60 + getMinutes t - 540) 0) 780 : Int) : ℚ) ≤ 780 := by
        exact_mod_cast hR780
      rw [div_mul_eq_mul_div, div_le_iff₀ (by norm_num : (0 : ℚ) < 780)]
      linarith
    · intro hlo hhi
      have hmm : min (max (getHours t * 60 + getMinutes t - 540) 0) 780
          = getHours t * 60 + getMinutes t - 540 := by omega
      rw [key, hmm]
    · intro hlo
      have hmm : min (max (getHours t * 60 + getMinutes t - 540) 0) 780 = 0 := by omega
      rw [key, hmm]
      norm_num
    · intro hhi
      have hmm : min (max (getHours t * 60 + getMinutes t - 540) 0) 780 = 780 := by omega
      rw [key, hmm]
      norm_num
  refine ⟨hgen, by decide, by decide, by decide, by decide, by decide, by decide, ?_, by decide⟩
  have h100 := (hgen tWed23).2.2.2.2
  rw [h100 (by decide)]

/-- Witness for C5: the 23:00 reservation clamps to 100%, and midnight clamps
to 0%. -/
theorem position_interpolation_and_scenario_witness :
    positionForTime tWed23 = 100 ∧ positionForTime wsMon = 0 :=
  ⟨(position_interpolation_and_scenario.1 tWed23).2.2.2.2 (by decide),
   (position_interpolation_and_scenario.1 wsMon).2.2.2.1 (by decide)⟩
